import Mathlib

/-!
Shallow embedding of the PyDriller core (files `pydriller/git_repository.py`
and `pydriller/repository_mining.py`) and proofs about it.

Python strings are modelled as Lean `String`; the handful of Python string
operations the code uses (`rstrip`, `strip`, `startswith`, single-character
`split`, `replace(c, "")`, slicing `[1:]`, `int(...)`) are defined below on
the character list underlying the string, matching Python semantics.
Python integers are `Int`; fallible code returns `Option` or `Except`;
external git operations are oracle functions bundled in an environment
record.
-/

namespace PyDriller

/-- Python whitespace (the set recognised by `str.strip` / `str.rstrip`):
space, tab, newline, carriage return, vertical tab, form feed. -/
def pyIsSpace (c : Char) : Bool :=
  c = ' ' || c = '\t' || c = '\n' || c = '\r' || c = Char.ofNat 11 || c = Char.ofNat 12

/-- Python `s.rstrip()`: drop trailing whitespace. -/
def pyRstrip (s : String) : String :=
  ⟨(s.toList.reverse.dropWhile pyIsSpace).reverse⟩

/-- Python `s.strip()`: drop leading and trailing whitespace. -/
def pyStrip (s : String) : String :=
  ⟨((s.toList.dropWhile pyIsSpace).reverse.dropWhile pyIsSpace).reverse⟩

/-- Python `s.startswith(p)`. -/
def pyStartswith (s p : String) : Bool :=
  p.toList.isPrefixOf s.toList

/-- Python `s[1:]`. -/
def pyDrop1 (s : String) : String :=
  ⟨s.toList.drop 1⟩

/-- Python `s.replace(c, "")` for a one-character needle `c`: Python's
`str.replace` removes every occurrence. -/
def pyRemoveChar (c : Char) (s : String) : String :=
  ⟨s.toList.filter (fun x => x ≠ c)⟩

/-- Splitting a character list at every occurrence of a separator character,
keeping empty segments — the semantics of Python `s.split(sep)` for a
one-character separator. -/
def splitOnCharList (sep : Char) : List Char → List (List Char)
  | [] => [[]]
  | c :: cs =>
    match splitOnCharList sep cs with
    | [] => [[]]
    | h :: t => if c = sep then [] :: h :: t else (c :: h) :: t

/-- Python `s.split(sep)` for a one-character separator `sep`. -/
def pySplitChar (sep : Char) (s : String) : List String :=
  (splitOnCharList sep s.toList).map (fun l => ⟨l⟩)

/-- Value of an underscore-grouped Python decimal digit sequence
(`digit (("_")? digit)*`), accumulator form. -/
def pyDigitsAux (acc : Nat) : List Char → Option Nat
  | [] => some acc
  | '_' :: c :: cs =>
    if c.isDigit then pyDigitsAux (acc * 10 + (c.toNat - 48)) cs else none
  | ['_'] => none
  | c :: cs =>
    if c.isDigit then pyDigitsAux (acc * 10 + (c.toNat - 48)) cs else none

/-- Value of a non-empty Python decimal digit sequence. -/
def pyDigits : List Char → Option Nat
  | [] => none
  | c :: cs => if c.isDigit then pyDigitsAux (c.toNat - 48) cs else none

/-- Python `int(s)` on a decimal string: surrounding whitespace is allowed,
then an optional sign and a non-empty underscore-grouped digit sequence.
`none` models the `ValueError` raised on any other input. -/
def pyInt (s : String) : Option Int :=
  let t := ((s.toList.dropWhile pyIsSpace).reverse.dropWhile pyIsSpace).reverse
  match t with
  | '-' :: rest => (pyDigits rest).map (fun n => -(n : Int))
  | '+' :: rest => (pyDigits rest).map (fun n => (n : Int))
  | rest => (pyDigits rest).map (fun n => (n : Int))

/-! ## Diff parser (`GitRepository.parse_diff` / `_get_line_numbers`) -/

/-- `GitRepository._get_line_numbers`: parse a hunk header such as
`@@ -1,3 +1,2 @@` into the two counter start values (each declared start
minus one). `none` models the `IndexError`/`ValueError` raised when the
header lacks the two number fields or they fail to parse. -/
def getLineNumbers (line : String) : Option (Int × Int) :=
  match pySplitChar ' ' line with
  | _ :: numbersOldFile :: numbersNewFile :: _ =>
    match pyInt (pyRemoveChar '-' ((pySplitChar ',' numbersOldFile).headD "")),
          pyInt ((pySplitChar ',' numbersNewFile).headD "") with
    | some d, some a => some (d - 1, a - 1)
    | _, _ => none
  | _ => none

/-- Result dictionary of `parse_diff`: the `added` and `deleted` lists of
(line number, line text) pairs. -/
structure ParsedDiff where
  added : List (Int × String)
  deleted : List (Int × String)
  deriving DecidableEq, Repr

/-- Loop state of `parse_diff`: the two counters and the two output lists. -/
structure DiffState where
  countDeletions : Int
  countAdditions : Int
  added : List (Int × String)
  deleted : List (Int × String)
  deriving DecidableEq, Repr

/-- The literal `r"\ No newline at end of file"` compared against in
`parse_diff`. -/
def noNewlineMarker : String := "\\ No newline at end of file"

/-- One iteration of the `for line in lines` loop of
`GitRepository.parse_diff`: right-strip the line, speculatively advance both
counters, reset them at a hunk header, record a `-` line as deleted and
correct the additions counter, record a `+` line as added and correct the
deletions counter, and step both counters back at a no-newline marker.
`none` models the exception escaping from `_get_line_numbers`. -/
def parseStep (s : DiffState) (raw : String) : Option DiffState :=
  let line := pyRstrip raw
  let s1 : DiffState :=
    { s with countDeletions := s.countDeletions + 1,
             countAdditions := s.countAdditions + 1 }
  match (if pyStartswith line "@@" then
           (getLineNumbers line).map
             (fun p => { s1 with countDeletions := p.1, countAdditions := p.2 })
         else some s1) with
  | none => none
  | some s2 =>
    let s3 := if pyStartswith line "-" then
        { s2 with deleted := s2.deleted ++ [(s2.countDeletions, pyDrop1 line)],
                  countAdditions := s2.countAdditions - 1 }
      else s2
    let s4 := if pyStartswith line "+" then
        { s3 with added := s3.added ++ [(s3.countAdditions, pyDrop1 line)],
                  countDeletions := s3.countDeletions - 1 }
      else s3
    some (if line = noNewlineMarker then
        { s4 with countDeletions := s4.countDeletions - 1,
                  countAdditions := s4.countAdditions - 1 }
      else s4)

/-- `GitRepository.parse_diff`: split the diff text on newlines and run the
scanning loop from zeroed counters. `none` models the exception raised on a
malformed hunk header. -/
def parseDiff (diff : String) : Option ParsedDiff :=
  ((pySplitChar '\n' diff).foldlM parseStep
      { countDeletions := 0, countAdditions := 0, added := [], deleted := [] }).map
    (fun s => { added := s.added, deleted := s.deleted })

/-! ## Hunk-instrumented diff parser

`parseStepH` is `parseStep` with one extra ghost field: a hunk index,
incremented at every successfully parsed hunk header, and recorded with each
emitted entry. Erasing the ghost tags recovers `parseStep` exactly
(`parseStep_eraseHunkTags` below), so statements about "entries within one
hunk" of `parse_diff` can be phrased on the tagged entries. -/

/-- `DiffState` extended with a ghost hunk counter; emitted entries carry
the index of the hunk they were emitted in. -/
structure HDiffState where
  countDeletions : Int
  countAdditions : Int
  hunk : Nat
  added : List (Nat × Int × String)
  deleted : List (Nat × Int × String)
  deriving DecidableEq, Repr

/-- Forget the ghost hunk tags of an `HDiffState`. -/
def eraseHunkTags (s : HDiffState) : DiffState :=
  { countDeletions := s.countDeletions, countAdditions := s.countAdditions,
    added := s.added.map Prod.snd, deleted := s.deleted.map Prod.snd }

/-- `parseStep` instrumented with the ghost hunk index. -/
def parseStepH (s : HDiffState) (raw : String) : Option HDiffState :=
  let line := pyRstrip raw
  let s1 : HDiffState :=
    { s with countDeletions := s.countDeletions + 1,
             countAdditions := s.countAdditions + 1 }
  match (if pyStartswith line "@@" then
           (getLineNumbers line).map
             (fun p => { s1 with countDeletions := p.1, countAdditions := p.2,
                                 hunk := s1.hunk + 1 })
         else some s1) with
  | none => none
  | some s2 =>
    let s3 := if pyStartswith line "-" then
        { s2 with deleted := s2.deleted ++ [(s2.hunk, s2.countDeletions, pyDrop1 line)],
                  countAdditions := s2.countAdditions - 1 }
      else s2
    let s4 := if pyStartswith line "+" then
        { s3 with added := s3.added ++ [(s3.hunk, s3.countAdditions, pyDrop1 line)],
                  countDeletions := s3.countDeletions - 1 }
      else s3
    some (if line = noNewlineMarker then
        { s4 with countDeletions := s4.countDeletions - 1,
                  countAdditions := s4.countAdditions - 1 }
      else s4)

/-- `parse_diff` instrumented with the ghost hunk index; returns the final
tagged state. -/
def parseDiffH (diff : String) : Option HDiffState :=
  (pySplitChar '\n' diff).foldlM parseStepH
    { countDeletions := 0, countAdditions := 0, hunk := 0, added := [], deleted := [] }

/-- Two tagged entries of the same hunk appear with strictly increasing line
numbers. -/
def sameHunkLt (a b : Nat × Int × String) : Prop := a.1 = b.1 → a.2.1 < b.2.1

/-- Invariant of one tagged output list with respect to the current hunk
index and the corresponding counter: entries of equal hunks are strictly
increasing, every entry's hunk tag is at most the current hunk, and an entry
of the current hunk has line number at most the current counter. -/
def entriesInv (hunk : Nat) (cnt : Int) (l : List (Nat × Int × String)) : Prop :=
  l.Pairwise sameHunkLt ∧ ∀ e ∈ l, e.1 ≤ hunk ∧ (e.1 = hunk → e.2.1 ≤ cnt)

/-- Invariant of the whole instrumented parser state. -/
def hStateInv (s : HDiffState) : Prop :=
  entriesInv s.hunk s.countDeletions s.deleted ∧
  entriesInv s.hunk s.countAdditions s.added

/-! ## Errors and datetimes -/

/-- Decidable equality for `Except`, so that concrete runs of the fallible
embedded functions can be checked by `decide`. -/
instance exceptDecEq {ε : Type} {α : Type} [DecidableEq ε] [DecidableEq α] :
    DecidableEq (Except ε α) := fun a b =>
  match a, b with
  | .error e1, .error e2 =>
    match decEq e1 e2 with
    | isTrue h => isTrue (by rw [h])
    | isFalse h => isFalse (by intro hh; cases hh; exact h rfl)
  | .error _, .ok _ => isFalse (by intro hh; cases hh)
  | .ok _, .error _ => isFalse (by intro hh; cases hh)
  | .ok a1, .ok a2 =>
    match decEq a1 a2 with
    | isTrue h => isTrue (by rw [h])
    | isFalse h => isFalse (by intro hh; cases hh; exact h rfl)

/-- The Python exceptions the embedded code can raise: `GitCommandError`
(caught by the attribution engine), `AssertionError` (missing
hashes-to-ignore file), `IndexError` (list index out of range, re-raised
tag lookup), gitpython's `BadName` (unknown revision), `ValueError`
(malformed number in a hunk header), `TypeError` (naive/aware datetime
comparison), and a generic `Exception` carrying its message. -/
inductive PyError where
  | gitCommandError
  | assertionError
  | indexError
  | badName
  | valueError
  | typeError
  | exceptionMsg (msg : String)
  deriving DecidableEq, Repr

/-- Model of a `datetime.tzinfo` object, reduced to the result of its
`utcoffset` method in seconds; `none` models a `tzinfo` whose `utcoffset`
returns `None`. -/
structure PyTzInfo where
  utcoffsetSecs : Option Int
  deriving DecidableEq, Repr

/-- `pytz.utc`: offset zero. -/
def pytzUtc : PyTzInfo := { utcoffsetSecs := some 0 }

/-- Model of `datetime.datetime`: wall-clock fields plus optional tzinfo. -/
structure PyDateTime where
  year : Int
  month : Int
  day : Int
  hour : Int
  minute : Int
  second : Int
  microsecond : Int
  tzinfo : Option PyTzInfo
  deriving DecidableEq, Repr

/-- The `utcoffset` of a datetime: `none` when the datetime is naive
(no tzinfo, or a tzinfo whose `utcoffset` returns `None`). -/
def dtOffset (dt : PyDateTime) : Option Int :=
  match dt.tzinfo with
  | none => none
  | some tz => tz.utcoffsetSecs

/-- Days since 1970-01-01 of a proleptic-Gregorian civil date (the standard
era-based conversion formula). -/
def daysFromCivil (y m d : Int) : Int :=
  let y2 := if m ≤ 2 then y - 1 else y
  let era := (if 0 ≤ y2 then y2 else y2 - 399) / 400
  let yoe := y2 - era * 400
  let mp := (m + 9) % 12
  let doy := (153 * mp + 2) / 5 + d - 1
  let doe := yoe * 365 + yoe / 4 - yoe / 100 + doy
  era * 146097 + doe - 719468

/-- Microseconds on the absolute (UTC) timeline of a wall-clock datetime
shifted by an offset of `off` seconds. -/
def dtAbsMicro (dt : PyDateTime) (off : Int) : Int :=
  (((daysFromCivil dt.year dt.month dt.day * 24 + dt.hour) * 60 + dt.minute) * 60 +
      dt.second - off) * 1000000 + dt.microsecond

/-- Python `a < b` on datetimes: two naive datetimes compare by wall-clock
fields, two aware ones by absolute instant; a naive/aware mix raises
`TypeError`. -/
def pyDtLt (a b : PyDateTime) : Except PyError Bool :=
  match dtOffset a, dtOffset b with
  | none, none => .ok (decide (dtAbsMicro a 0 < dtAbsMicro b 0))
  | some oa, some ob => .ok (decide (dtAbsMicro a oa < dtAbsMicro b ob))
  | _, _ => .error .typeError

/-- Python `a > b` on datetimes (the reflected comparison). -/
def pyDtGt (a b : PyDateTime) : Except PyError Bool := pyDtLt b a

/-! ## Data model of commits and modifications

Modelled from the spec: the `Commit` and `Modification` records come from
`pydriller/domain/commit.py`, which is not under `src/`; their shape follows
spec section 3 — a Modification carries old path, new path, change kind and
the raw unified-diff text (plus the filename used by log messages and the
file-type filter), and a Commit carries its hash, committer timestamp,
author name, merge flag and ordered modification list. -/

/-- Modelled from the spec: the closed change-kind enumeration of a
Modification ("ADD, DELETE, MODIFY, RENAME, COPY"), plus the unknown
fallback. -/
inductive ModificationType where
  | ADD | COPY | RENAME | DELETE | MODIFY | UNKNOWN
  deriving DecidableEq, Repr

/-- Modelled from the spec: one file's change within a commit. -/
structure Modification where
  old_path : Option String
  new_path : Option String
  change_type : ModificationType
  diff : String
  filename : String
  deriving DecidableEq, Repr

/-- Modelled from the spec: an immutable commit record. -/
structure Commit where
  hash : String
  committer_date : PyDateTime
  author_name : String
  merge : Bool
  modifications : List Modification
  deriving DecidableEq, Repr

/-! ## Blame-based attribution (`GitRepository`) -/

/-- Oracle view of the external git collaborator used by the attribution
engine. `blame rev path` models the raw string output of
`self.git.blame("-w", rev, "--", path)`; `resolveHash h` models
`self.get_commit(h).hash`. `hyperBlame` is modelled from the spec:
`GitHyperBlame.hyper_blame` (`pydriller/utils/hyperblame.py`, not under
`src/`) takes the ignore list, the path and the revision and returns blame
output with the same shape as ordinary blame, an ordered list of lines
(spec section 6, `ignore_aware_blame`). -/
structure GitEnv where
  blame : String → Option String → Except PyError String
  hyperBlame : List String → Option String → String → Except PyError (List String)
  resolveHash : String → String

/-- The branch condition of `GitRepository._get_blame` (line 363): ordinary
blame is used when the flag is falsy or the ignore list is `None`. -/
def usesNormalBlame (hyper_blame : Bool) (hashes_to_ignore : Option (List String)) : Bool :=
  !hyper_blame || hashes_to_ignore.isNone

/-- `GitRepository._get_blame`: ordinary blame output split on newlines, or
hyper-blame with the ignore list, both at the parent revision
`commit_hash ++ "^"`. -/
def getBlame (env : GitEnv) (commit_hash : String) (path : Option String)
    (hyper_blame : Bool) (hashes_to_ignore : Option (List String)) :
    Except PyError (List String) :=
  if usesNormalBlame hyper_blame hashes_to_ignore then
    (env.blame (commit_hash ++ "^") path).map (pySplitChar '\n')
  else
    env.hyperBlame (hashes_to_ignore.getD []) path (commit_hash ++ "^")

/-- The string of three single-quote characters. -/
def tripleSingleQuote : String := ⟨[Char.ofNat 39, Char.ofNat 39, Char.ofNat 39]⟩

/-- `GitRepository._useless_line`: empty line or recognised comment-marker
prefix. -/
def uselessLine (line : String) : Bool :=
  line = "" || pyStartswith line "//" || pyStartswith line "#" ||
  pyStartswith line "/*" || pyStartswith line tripleSingleQuote ||
  pyStartswith line "\"\"\"" || pyStartswith line "*"

/-- Python list indexing at an `Int` index: negative indices count from the
end; `none` models `IndexError`. -/
def pyIndex (l : List String) (i : Int) : Option String :=
  if i < 0 then
    if 0 ≤ i + l.length then l.get? (i + l.length).toNat else none
  else l.get? i.toNat

/-- Lines 332-335 of `git_repository.py`: the path handed to blame — the
old path for RENAME and DELETE modifications, the new path otherwise. -/
def blamePathOf (mod : Modification) : Option String :=
  if mod.change_type = ModificationType.RENAME ∨
     mod.change_type = ModificationType.DELETE
  then mod.old_path else mod.new_path

/-- The attribution map (`commits` dictionary): file path (or `None`) to the
set of introducing commit hashes; a key not in the dictionary maps to the
empty set. -/
def AttrMap := Option String → Finset String

/-- The empty attribution map. -/
def emptyAttrMap : AttrMap := fun _ => ∅

/-- `commits.setdefault(path, set()).add(h)`. -/
def addAttr (m : AttrMap) (k : Option String) (h : String) : AttrMap :=
  fun k2 => if k2 = k then insert h (m k) else m k2

/-- The `for num_line, line in deleted_lines` loop of
`GitRepository._calculate_last_commits` (lines 340-349): skip useless lines;
index the blame output at `num_line - 1` (an out-of-range access models the
uncaught `IndexError`); take the first space-separated token, strip `^`
boundary markers, resolve it and record it under the current path — which is
re-targeted to the new path first whenever the modification is a RENAME. -/
def innerLoop (env : GitEnv) (mod : Modification) (blame : List String) :
    List (Int × String) → Option String → AttrMap → Except PyError AttrMap
  | [], _, m => .ok m
  | (num_line, line) :: rest, path, m =>
    if uselessLine (pyStrip line) then innerLoop env mod blame rest path m
    else
      match pyIndex blame (num_line - 1) with
      | none => .error .indexError
      | some bl =>
        let buggy_commit := pyRemoveChar '^' ((pySplitChar ' ' bl).headD "")
        let path2 := if mod.change_type = ModificationType.RENAME then mod.new_path
          else path
        innerLoop env mod blame rest path2
          (addAttr m path2 (env.resolveHash buggy_commit))

/-- The body of the `for mod in modifications` loop of
`_calculate_last_commits`: parse the diff (outside the `try`, so a parse
failure propagates), then blame and attribute the deleted lines inside a
`try` whose `except GitCommandError` drops the modification's contribution
and keeps the map as it was. -/
def processMod (env : GitEnv) (commit : Commit) (hyper_blame : Bool)
    (hashes_to_ignore : Option (List String)) (m : AttrMap) (mod : Modification) :
    Except PyError AttrMap :=
  match parseDiff mod.diff with
  | none => .error .valueError
  | some pd =>
    match (getBlame env commit.hash (blamePathOf mod) hyper_blame hashes_to_ignore >>=
            fun blame => innerLoop env mod blame pd.deleted (blamePathOf mod) m) with
    | .error .gitCommandError => .ok m
    | .error e => .error e
    | .ok m2 => .ok m2

/-- `GitRepository._calculate_last_commits`: fold the per-modification body
over the modification list, starting from the empty map. -/
def calculateLastCommits (env : GitEnv) (commit : Commit)
    (modifications : List Modification) (hyper_blame : Bool)
    (hashes_to_ignore : Option (List String)) : Except PyError AttrMap :=
  modifications.foldlM (processMod env commit hyper_blame hashes_to_ignore) emptyAttrMap

/-- Lines 308-312 of `git_repository.py`: the ignore list starts empty; when
a path is supplied, assert that the file exists (`AssertionError` otherwise)
and read its lines. `fs` models the file system as a map from path to file
lines. -/
def entryHashesToIgnore (fs : String → Option (List String)) :
    Option String → Except PyError (List String)
  | none => .ok []
  | some p =>
    match fs p with
    | none => .error .assertionError
    | some ls => .ok ls

/-- `GitRepository.get_commits_last_modified_lines`: resolve the ignore
list, pick the modification list (a single explicit modification or the
commit's own), and run `_calculate_last_commits`. The ignore list handed
down is always an actual list (`some _`), never `None`. -/
def getCommitsLastModifiedLines (env : GitEnv) (fs : String → Option (List String))
    (commit : Commit) (modification : Option Modification)
    (hyper_blame : Bool) (hashes_to_ignore_path : Option String) :
    Except PyError AttrMap :=
  match entryHashesToIgnore fs hashes_to_ignore_path with
  | .error e => .error e
  | .ok hashes_to_ignore =>
    let modifications := match modification with
      | some m => [m]
      | none => commit.modifications
    calculateLastCommits env commit modifications hyper_blame (some hashes_to_ignore)

/-! ## Traversal and filter pipeline (`RepositoryMining`) -/

/-- The filter attributes of a `RepositoryMining` instance that the sanity
check, the timezone normalisation and the commit filter read and write. -/
structure MiningState where
  single : Option String
  since : Option PyDateTime
  toDate : Option PyDateTime
  from_commit : Option String
  to_commit : Option String
  from_tag : Option String
  to_tag : Option String
  only_modifications_with_file_types : Option (List String)
  only_no_merge : Bool
  only_authors : Option (List String)
  only_commits : Option (List String)
  only_releases : Bool
  filepath : Option String
  filepath_commits : Option (List String)
  tagged_commits : Option (List String)

/-- Oracle view of one git repository for the traversal pipeline:
`commitDate h` models `get_commit(h).committer_date` (`none` models the
unknown-revision error), `tagDate t` models
`get_commit_from_tag(t).committer_date` (`none` models the re-raised lookup
error), `commitList` the sequence produced by `get_list_commits` in the
requested branch and order, `modifiedFileCommits` the
`get_commits_modified_file` query and `taggedCommits` the
`get_tagged_commits` query. -/
structure RepoModel where
  commitDate : String → Option PyDateTime
  tagDate : String → Option PyDateTime
  commitList : List Commit
  modifiedFileCommits : String → List String
  taggedCommits : List String

/-- Python truthiness of an optional string (`None` and `""` are falsy). -/
def pyTruthyOptStr : Option String → Bool
  | none => false
  | some s => s ≠ ""

/-- Python truthiness of an optional datetime (a datetime object is always
truthy). -/
def pyTruthyOptDt : Option PyDateTime → Bool
  | none => false
  | some _ => true

/-- `RepositoryMining.only_one_filter`: at most one entry of the list is not
`None` (each entry abstracted to its `is not None` flag). -/
def onlyOneFilter (arr : List Bool) : Bool :=
  decide ((arr.filter id).length ≤ 1)

/-- Message of the single-with-other-filters configuration error. -/
def singleFilterMsg : String :=
  "You can not specify a single commit with other filters"

/-- Message of the at-most-one-boundary configuration error (the source
uses the same text for the starting and the ending group). -/
def onlyOneFilterMsg : String :=
  "You can only specify one between since, from_tag and from_commit"

/-- `RepositoryMining._check_starting_commit`: reject more than one of
since / from_tag / from_commit being not-`None`, then resolve from_commit
and from_tag into `since` through the repository (a failed commit lookup
models gitpython's `BadName`, a failed tag lookup the re-raised
`IndexError`). -/
def checkStartingCommit (repo : RepoModel) (s : MiningState) :
    Except PyError MiningState :=
  if !onlyOneFilter [s.since.isSome, s.from_tag.isSome, s.from_commit.isSome] then
    .error (.exceptionMsg onlyOneFilterMsg)
  else
    match (match s.from_commit with
           | none => Except.ok s
           | some h =>
             match repo.commitDate h with
             | none => Except.error PyError.badName
             | some d => Except.ok { s with since := some d }) with
    | .error e => .error e
    | .ok s1 =>
      match s.from_tag with
      | none => .ok s1
      | some t =>
        match repo.tagDate t with
        | none => .error .indexError
        | some d => .ok { s1 with since := some d }

/-- `RepositoryMining._check_ending_commit`: the same for
to / to_commit / to_tag, resolving into the `to` bound (the source raises
this error with the very same message text as the starting check). -/
def checkEndingCommit (repo : RepoModel) (s : MiningState) :
    Except PyError MiningState :=
  if !onlyOneFilter [s.toDate.isSome, s.to_commit.isSome, s.to_tag.isSome] then
    .error (.exceptionMsg onlyOneFilterMsg)
  else
    match (match s.to_commit with
           | none => Except.ok s
           | some h =>
             match repo.commitDate h with
             | none => Except.error PyError.badName
             | some d => Except.ok { s with toDate := some d }) with
    | .error e => .error e
    | .ok s1 =>
      match s.to_tag with
      | none => .ok s1
      | some t =>
        match repo.tagDate t with
        | none => .error .indexError
        | some d => .ok { s1 with toDate := some d }

/-- `RepositoryMining._sanity_check_filters`: reject `single` together with
any truthy other filter, then run the starting- and ending-boundary
checks. -/
def sanityCheckFilters (repo : RepoModel) (s : MiningState) :
    Except PyError MiningState :=
  if s.single.isSome &&
     (pyTruthyOptDt s.since || pyTruthyOptDt s.toDate ||
      pyTruthyOptStr s.from_commit || pyTruthyOptStr s.to_commit ||
      pyTruthyOptStr s.from_tag || pyTruthyOptStr s.to_tag) then
    .error (.exceptionMsg singleFilterMsg)
  else
    match checkStartingCommit repo s with
    | .error e => .error e
    | .ok s1 => checkEndingCommit repo s1

/-- `RepositoryMining._replace_timezone`: give a naive datetime (no tzinfo,
or a tzinfo whose `utcoffset` is `None`) the UTC timezone; leave aware
datetimes alone. -/
def replaceTimezone (dt : PyDateTime) : PyDateTime :=
  if dt.tzinfo.isNone || (dtOffset dt).isNone then { dt with tzinfo := some pytzUtc }
  else dt

/-- `RepositoryMining._check_timezones`: normalise whichever of the two
boundaries is set. -/
def checkTimezones (s : MiningState) : MiningState :=
  let s1 := match s.since with
    | none => s
    | some d => { s with since := some (replaceTimezone d) }
  match s1.toDate with
  | none => s1
  | some d => { s1 with toDate := some (replaceTimezone d) }

/-- Python `s.endswith(suffix)`. -/
def pyEndswith (s suf : String) : Bool := suf.toList.isSuffixOf s.toList

/-- `RepositoryMining._has_modification_with_file_type`: some modification
filename ends with one of the given suffixes (Python `str.endswith` against
a tuple; an empty tuple matches nothing). -/
def hasModificationWithFileType (types : List String) (c : Commit) : Bool :=
  c.modifications.any (fun mod => types.any (fun t => pyEndswith mod.filename t))

/-- `RepositoryMining._is_commit_filtered`: the ordered, short-circuiting
conjunction of the active filters; a datetime comparison can raise. -/
def isCommitFiltered (s : MiningState) (c : Commit) : Except PyError Bool := do
  match s.single with
  | some h => if c.hash ≠ h then return true
  | none => pure ()
  let lowCut ← match s.since with
    | none => pure false
    | some d => pyDtLt c.committer_date d
  let dateCut ← if lowCut then pure true else
    match s.toDate with
    | none => pure false
    | some d => pyDtGt c.committer_date d
  if dateCut then return true
  match s.only_modifications_with_file_types with
  | some types => if !hasModificationWithFileType types c then return true
  | none => pure ()
  if s.only_no_merge && c.merge then return true
  match s.only_authors with
  | some allowed => if !allowed.contains c.author_name then return true
  | none => pure ()
  match s.only_commits with
  | some allowed => if !allowed.contains c.hash then return true
  | none => pure ()
  match s.filepath_commits with
  | some allowed => if !allowed.contains c.hash then return true
  | none => pure ()
  match s.tagged_commits with
  | some allowed => if !allowed.contains c.hash then return true
  | none => pure ()
  return false

/-- The pre-computation step of `traverse_commits`: resolve the file-path
history list and the tagged-commit list when the corresponding filters are
set. -/
def resolvePreComputed (repo : RepoModel) (s : MiningState) : MiningState :=
  let s1 := if s.filepath.isSome then
      { s with filepath_commits := some (repo.modifiedFileCommits (s.filepath.getD "")) }
    else s
  if s1.only_releases then { s1 with tagged_commits := some repo.taggedCommits } else s1

/-- The per-repository commit loop of `traverse_commits` as a generator run:
the commits yielded, paired with the exception that ended the run, if
any. -/
def yieldLoop (s : MiningState) : List Commit → List Commit × Option PyError
  | [] => ([], none)
  | c :: cs =>
    match isCommitFiltered s c with
    | .error e => ([], some e)
    | .ok true => yieldLoop s cs
    | .ok false =>
      let r := yieldLoop s cs
      (c :: r.1, r.2)

/-- `RepositoryMining.traverse_commits` over the repository list: per
repository, run the filter sanity check and the timezone normalisation
(their attribute updates persist into later repositories, as the Python
instance attributes do), pre-compute the filter lists, then yield the
commits that survive filtering; a raised exception ends the whole generator
run. -/
def traverseCommits (repos : List RepoModel) (s : MiningState) :
    List Commit × Option PyError :=
  match repos with
  | [] => ([], none)
  | repo :: rest =>
    match sanityCheckFilters repo s with
    | .error e => ([], some e)
    | .ok s1 =>
      let s2 := checkTimezones s1
      let s3 := resolvePreComputed repo s2
      match yieldLoop s3 repo.commitList with
      | (ys, some e) => (ys, some e)
      | (ys, none) =>
        let r := traverseCommits rest s3
        (ys ++ r.1, r.2)

/-! ## Concrete fixtures used by the witnesses and counterexamples -/

/-- A file system with no files. -/
def noFs : String → Option (List String) := fun _ => none

/-- A naive datetime fixture. -/
def dtNaive : PyDateTime :=
  { year := 2020, month := 1, day := 1, hour := 0, minute := 0, second := 0,
    microsecond := 0, tzinfo := none }

/-- A timezone-aware datetime fixture (offset of one hour). -/
def dtAware : PyDateTime :=
  { year := 2020, month := 1, day := 1, hour := 0, minute := 0, second := 0,
    microsecond := 0, tzinfo := some { utcoffsetSecs := some 3600 } }

/-- A mining configuration with every filter unset. -/
def baseState : MiningState :=
  { single := none, since := none, toDate := none, from_commit := none,
    to_commit := none, from_tag := none, to_tag := none,
    only_modifications_with_file_types := none, only_no_merge := false,
    only_authors := none, only_commits := none, only_releases := false,
    filepath := none, filepath_commits := none, tagged_commits := none }

/-- A repository oracle with no commits and failing lookups. -/
def c4Repo : RepoModel :=
  { commitDate := fun _ => none, tagDate := fun _ => none, commitList := [],
    modifiedFileCommits := fun _ => [], taggedCommits := [] }

/-- A configuration with both `since` and `from_tag` set (two members of the
starting group). -/
def c4BadState : MiningState :=
  { baseState with since := some dtNaive, from_tag := some "v1" }

/-- A configuration with exactly one member of each boundary group set. -/
def c4GoodState : MiningState :=
  { baseState with since := some dtNaive, to_tag := some "v2" }

/-- A configuration with both `to` and `to_tag` set (two members of the
ending group) and nothing else. -/
def c4BadToState : MiningState :=
  { baseState with toDate := some dtNaive, to_tag := some "v2" }

/-- A configuration with the ending group over-set (`to` and `to_tag`) and
an unresolvable `from_commit`: the starting-boundary resolution runs first
and raises the unknown-revision error before the ending group is ever
checked. -/
def c4CexState : MiningState :=
  { baseState with from_commit := some "nope", toDate := some dtNaive,
                   to_tag := some "v2" }

/-- A one-line MODIFY modification: the diff deletes line 1, `x`. -/
def c1Mod : Modification :=
  { old_path := some "f.py", new_path := some "f.py",
    change_type := ModificationType.MODIFY,
    diff := "@@ -1 +0,0 @@\n-x", filename := "f.py" }

/-- A commit containing only `c1Mod`. -/
def c1Commit : Commit :=
  { hash := "c1hash", committer_date := dtNaive, author_name := "alice",
    merge := false, modifications := [c1Mod] }

/-- An environment in which ordinary blame attributes line 1 to `aaaa` but
hyper-blame attributes it to `bbbb`, so the two strategies are
observationally distinct. -/
def c1Env : GitEnv :=
  { blame := fun _ _ => Except.ok "aaaa x",
    hyperBlame := fun _ _ _ => Except.ok ["bbbb x"],
    resolveHash := fun h => h }

/-- A RENAME modification `a.py` to `b.py` whose diff deletes line 1, `x`. -/
def c2Mod : Modification :=
  { old_path := some "a.py", new_path := some "b.py",
    change_type := ModificationType.RENAME,
    diff := "@@ -1 +0,0 @@\n-x", filename := "b.py" }

/-- A commit containing only `c2Mod`. -/
def c2Commit : Commit :=
  { hash := "c2hash", committer_date := dtNaive, author_name := "alice",
    merge := false, modifications := [c2Mod] }

/-- An environment whose blame succeeds only for the old path `a.py`,
attributing line 1 to `deadbeef`. -/
def c2Env : GitEnv :=
  { blame := fun _ path =>
      if path = some "a.py" then Except.ok "deadbeef x"
      else Except.error PyError.gitCommandError,
    hyperBlame := fun _ _ _ => Except.error PyError.gitCommandError,
    resolveHash := fun h => h }

/-- The blame line list `c2Env` yields for `a.py`. -/
def c2Blame : List String := ["deadbeef x"]

/-- The attribution map after processing the single deleted line of
`c2Mod`: `deadbeef` recorded under the new path `b.py`. -/
def c2MapAfter : AttrMap := addAttr emptyAttrMap (some "b.py") "deadbeef"

/-- A two-hunk diff text: hunk 1 deletes lines 1 and 2, hunk 2 deletes
line 4. -/
def c3Diff : String := "@@ -1,2 +1,2 @@\n-a\n-b\n@@ -4 +4 @@\n-c"

/-- The instrumented parser state `c3Diff` ends in. -/
def c3HState : HDiffState :=
  { countDeletions := 4, countAdditions := 3, hunk := 2,
    added := [], deleted := [(1, 1, "a"), (1, 2, "b"), (2, 4, "c")] }

/-- A modification whose blame target is missing at the parent revision. -/
def c5BadMod : Modification :=
  { old_path := some "gone.py", new_path := some "gone.py",
    change_type := ModificationType.MODIFY,
    diff := "@@ -1 +0,0 @@\n-x", filename := "gone.py" }

/-- A modification whose blame succeeds. -/
def c5GoodMod : Modification :=
  { old_path := some "ok.py", new_path := some "ok.py",
    change_type := ModificationType.MODIFY,
    diff := "@@ -1 +0,0 @@\n-y", filename := "ok.py" }

/-- A commit containing the failing and the succeeding modification. -/
def c5Commit : Commit :=
  { hash := "c5hash", committer_date := dtNaive, author_name := "alice",
    merge := false, modifications := [c5BadMod, c5GoodMod] }

/-- An environment whose blame raises `GitCommandError` for `gone.py` and
attributes every line of any other file to `cafe`. -/
def c5Env : GitEnv :=
  { blame := fun _ path =>
      if path = some "gone.py" then Except.error PyError.gitCommandError
      else Except.ok "cafe y",
    hyperBlame := fun _ _ _ => Except.error PyError.gitCommandError,
    resolveHash := fun h => h }

/-- The parse of `c5BadMod.diff`. -/
def c5ParsedBad : ParsedDiff := { added := [], deleted := [(1, "x")] }

/-- A diff text that still carries the full-file `---` / `+++` header
lines. -/
def c8Diff : String := "--- a/f.py\n+++ b/f.py\n@@ -1 +1 @@\n-x\n+y"

/-- The result of parsing `c8Diff`: the `---` header line lands among the
deleted entries and the `+++` header line among the added ones, first
character stripped, at the counter values current when they were
scanned. -/
def c8Parsed : ParsedDiff :=
  { added := [(1, "++ b/f.py"), (1, "y")],
    deleted := [(1, "-- a/f.py"), (1, "x")] }

/-- An environment with inert oracles. -/
def trivialEnv : GitEnv :=
  { blame := fun _ _ => Except.error PyError.gitCommandError,
    hyperBlame := fun _ _ _ => Except.error PyError.gitCommandError,
    resolveHash := fun h => h }

/-- A commit with no modifications. -/
def c9Commit : Commit :=
  { hash := "c9hash", committer_date := dtNaive, author_name := "alice",
    merge := false, modifications := [] }

/-! ## Theorems -/

/-- `_replace_timezone` does not touch an aware datetime (one whose
`utcoffset` is not `None`). -/
theorem replaceTimezone_of_aware (d : PyDateTime) (hd : dtOffset d ≠ none) :
    replaceTimezone d = d := by
  unfold replaceTimezone
  have h2 : (dtOffset d).isNone = false := by
    cases h : dtOffset d with
    | none => exact absurd h hd
    | some _ => rfl
  have h1 : d.tzinfo.isNone = false := by
    cases h : d.tzinfo with
    | none =>
      exfalso
      apply hd
      unfold dtOffset
      rw [h]
    | some _ => rfl
  rw [h1, h2]
  rfl

/-- `_replace_timezone` is idempotent. -/
theorem replaceTimezone_idem (d : PyDateTime) :
    replaceTimezone (replaceTimezone d) = replaceTimezone d := by
  by_cases h : dtOffset d = none
  · have hrepl : replaceTimezone d = { d with tzinfo := some pytzUtc } := by
      unfold replaceTimezone
      rw [h]
      cases ht : d.tzinfo <;> rfl
    rw [hrepl]
    apply replaceTimezone_of_aware
    simp [dtOffset, pytzUtc]
  · rw [replaceTimezone_of_aware d h, replaceTimezone_of_aware d h]

/-- C10: the timestamp-boundary normalization `_replace_timezone` leaves
every already timezone-aware datetime unchanged, and applying it twice to
any datetime yields the same result as applying it once. -/
theorem claim_C10 (dt : PyDateTime) :
    (dtOffset dt ≠ none → replaceTimezone dt = dt) ∧
    replaceTimezone (replaceTimezone dt) = replaceTimezone dt :=
  ⟨replaceTimezone_of_aware dt, replaceTimezone_idem dt⟩

/-- Witness for C10 at the concrete aware datetime `dtAware`. -/
theorem claim_C10_witness :
    dtOffset dtAware ≠ none ∧
    (replaceTimezone dtAware = dtAware ∧
     replaceTimezone (replaceTimezone dtAware) = replaceTimezone dtAware) :=
  ⟨by decide, (claim_C10 dtAware).1 (by decide), (claim_C10 dtAware).2⟩

/-- C7: `parse_diff` applied to the four-line diff `@@ -1,3 +1,2 @@`, ` a`,
`-b`, ` c` returns deleted `[(2, "b")]` and added `[]`: the hunk header
resets both counters to the declared starts minus one, context lines
advance both counters, and the deleted line is numbered in the
pre-image. -/
theorem claim_C7 :
    parseDiff "@@ -1,3 +1,2 @@\n a\n-b\n c" =
      some { added := [], deleted := [(2, "b")] } := by decide

/-- C9: calling the attribution entry point with a hashes-to-ignore path
that names no existing file yields the assertion error before any diff is
parsed or any blame is run — the result is the bare error, with no partial
attribution map. -/
theorem claim_C9 (env : GitEnv) (fs : String → Option (List String))
    (commit : Commit) (modification : Option Modification) (hyper_blame : Bool)
    (p : String) (h : fs p = none) :
    getCommitsLastModifiedLines env fs commit modification hyper_blame (some p) =
      .error .assertionError := by
  simp [getCommitsLastModifiedLines, entryHashesToIgnore, h]

/-- Witness for C9 on the empty file system. -/
theorem claim_C9_witness :
    noFs "ignore.txt" = none ∧
    getCommitsLastModifiedLines trivialEnv noFs c9Commit none false (some "ignore.txt") =
      .error .assertionError :=
  ⟨rfl, claim_C9 trivialEnv noFs c9Commit none false "ignore.txt" rfl⟩

/-- C1 counterexample: with the hyper-blame flag truthy and no ignore file
supplied, the entry point resolves the ignore list to the *empty list* —
and still selects hyper-blame, not ordinary blame. On `c1Env`, where the
two strategies attribute line 1 to different commits, the returned map
carries hyper-blame's answer `bbbb` (flag truthy, ignore list empty),
whereas ordinary blame would give `aaaa` (as the flag-false run shows). -/
theorem claim_C1_counterexample :
    entryHashesToIgnore noFs none = .ok [] ∧
    usesNormalBlame true (some []) = false ∧
    (getCommitsLastModifiedLines c1Env noFs c1Commit none true none).map
        (fun m => m (some "f.py")) = .ok {"bbbb"} ∧
    (getCommitsLastModifiedLines c1Env noFs c1Commit none false none).map
        (fun m => m (some "f.py")) = .ok {"aaaa"} := by
  refine ⟨rfl, rfl, ?_, ?_⟩ <;> decide

/-- C1 (amended): for every invocation of the attribution entry point, the
ignore list handed to `_get_blame` is an actual list (possibly empty),
never `None`, so hyper-blame is selected exactly when the `hyper_blame`
flag is truthy; whether the ignore list is empty plays no role, and with a
falsy flag ordinary git blame is invoked silently. -/
theorem claim_C1 (fs : String → Option (List String)) (p : Option String)
    (hti : List String) (_h : entryHashesToIgnore fs p = .ok hti)
    (env : GitEnv) (commit_hash : String) (path : Option String)
    (hyper_blame : Bool) :
    usesNormalBlame hyper_blame (some hti) = !hyper_blame ∧
    getBlame env commit_hash path hyper_blame (some hti) =
      (if hyper_blame then env.hyperBlame hti path (commit_hash ++ "^")
       else (env.blame (commit_hash ++ "^") path).map (pySplitChar '\n')) := by
  constructor
  · cases hyper_blame <;> rfl
  · cases hyper_blame <;> simp [getBlame, usesNormalBlame]

/-- Witness for C1 (amended): no ignore file, flag truthy. -/
theorem claim_C1_witness :
    entryHashesToIgnore noFs none = .ok [] ∧
    (usesNormalBlame true (some []) = !true ∧
     getBlame c1Env "c1hash" (some "f.py") true (some []) =
       (if true then c1Env.hyperBlame [] (some "f.py") ("c1hash" ++ "^")
        else (c1Env.blame ("c1hash" ++ "^") (some "f.py")).map (pySplitChar '\n'))) :=
  ⟨rfl, claim_C1 noFs none [] rfl c1Env "c1hash" (some "f.py") true⟩

/-- C6: a deleted line whose stripped text is useless — empty or starting
with `//`, `#`, `/*`, `*` or a triple-quote marker — never contributes an
entry: the attribution loop over a deleted-line list with all useless lines
removed returns exactly the same result as over the full list, so no blame
lookup for such a line ever adds a commit hash under any key. -/
theorem claim_C6 (env : GitEnv) (mod : Modification) (blame : List String)
    (deleted : List (Int × String)) (path : Option String) (m : AttrMap) :
    innerLoop env mod blame
        (deleted.filter (fun p => !uselessLine (pyStrip p.2))) path m =
      innerLoop env mod blame deleted path m := by
  induction deleted generalizing path m with
  | nil => rfl
  | cons hd tl ih =>
    obtain ⟨num_line, line⟩ := hd
    by_cases hu : uselessLine (pyStrip line)
    · simp only [List.filter_cons, hu, Bool.not_true, Bool.false_eq_true,
        if_false, innerLoop, if_true]
      exact ih path m
    · have hu2 : uselessLine (pyStrip line) = false := by
        cases hx : uselessLine (pyStrip line) with
        | true => exact absurd hx hu
        | false => rfl
      simp only [List.filter_cons, hu2, Bool.not_false, if_true, innerLoop,
        Bool.false_eq_true, if_false]
      cases pyIndex blame (num_line - 1) with
      | none => rfl
      | some bl => exact ih _ _

/-- `foldlM` over `Except` distributes over list append. -/
theorem foldlM_except_append {α β ε : Type} (f : β → α → Except ε β)
    (l1 l2 : List α) (b : β) :
    (l1 ++ l2).foldlM f b = (l1.foldlM f b) >>= fun b2 => l2.foldlM f b2 := by
  induction l1 generalizing b with
  | nil => simp
  | cons x xs ih =>
    simp only [List.cons_append, List.foldlM_cons]
    cases f b x with
    | error e => rfl
    | ok b2 => exact ih b2

/-- When blame fails with `GitCommandError`, the modification contributes
nothing: `processMod` returns the incoming map unchanged. -/
theorem processMod_skip (env : GitEnv) (commit : Commit) (hyper_blame : Bool)
    (hti : Option (List String)) (mod : Modification) (pd : ParsedDiff)
    (hpd : parseDiff mod.diff = some pd)
    (hb : getBlame env commit.hash (blamePathOf mod) hyper_blame hti =
      .error .gitCommandError) (m : AttrMap) :
    processMod env commit hyper_blame hti m mod = .ok m := by
  unfold processMod
  rw [hpd, hb]
  rfl

/-- C5: if obtaining the blame for one modification fails with a git
command error, `_calculate_last_commits` omits that modification's
contribution and still returns the attribution map built from all the other
modifications of the commit — the run with the failing modification equals
the run without it, so the failure never propagates and never aborts the
whole commit's attribution. -/
theorem claim_C5 (env : GitEnv) (commit : Commit) (hyper_blame : Bool)
    (hti : Option (List String)) (pre post : List Modification)
    (mod : Modification) (pd : ParsedDiff)
    (hpd : parseDiff mod.diff = some pd)
    (hb : getBlame env commit.hash (blamePathOf mod) hyper_blame hti =
      .error .gitCommandError) :
    calculateLastCommits env commit (pre ++ mod :: post) hyper_blame hti =
      calculateLastCommits env commit (pre ++ post) hyper_blame hti := by
  unfold calculateLastCommits
  rw [foldlM_except_append, foldlM_except_append]
  cases hpre : pre.foldlM (processMod env commit hyper_blame hti) emptyAttrMap with
  | error e => rfl
  | ok m =>
    show (mod :: post).foldlM (processMod env commit hyper_blame hti) m =
      post.foldlM (processMod env commit hyper_blame hti) m
    rw [List.foldlM_cons, processMod_skip env commit hyper_blame hti mod pd hpd hb m]
    rfl

/-- Witness for C5: in `c5Commit`, blame fails for `gone.py` and the
attribution equals the one computed from the surviving modification
alone. -/
theorem claim_C5_witness :
    parseDiff c5BadMod.diff = some c5ParsedBad ∧
    getBlame c5Env c5Commit.hash (blamePathOf c5BadMod) false (some []) =
      .error .gitCommandError ∧
    calculateLastCommits c5Env c5Commit ([] ++ c5BadMod :: [c5GoodMod]) false (some []) =
      calculateLastCommits c5Env c5Commit ([] ++ [c5GoodMod]) false (some []) :=
  ⟨by decide, by decide,
   claim_C5 c5Env c5Commit false (some []) [] [c5GoodMod] c5BadMod c5ParsedBad
     (by decide) (by decide)⟩

/-- A string starting with a non-empty prefix starts with that prefix's
head character. -/
theorem pyStartswith_head (s p : String) (c : Char) (cs : List Char)
    (hp : p.toList = c :: cs) (h : pyStartswith s p = true) :
    ∃ t, s.toList = c :: t := by
  unfold pyStartswith at h
  rw [List.isPrefixOf_iff_prefix] at h
  obtain ⟨t, ht⟩ := h
  refine ⟨cs ++ t, ?_⟩
  rw [← ht, hp, List.cons_append]

/-- Two prefixes with different head characters cannot both match. -/
theorem pyStartswith_clash (s p q : String) (c d : Char) (cp cq : List Char)
    (hp : p.toList = c :: cp) (hq : q.toList = d :: cq) (hcd : c ≠ d)
    (h : pyStartswith s p = true) : pyStartswith s q = false := by
  cases hx : pyStartswith s q with
  | false => rfl
  | true =>
    obtain ⟨t1, h1⟩ := pyStartswith_head s p c cp hp h
    obtain ⟨t2, h2⟩ := pyStartswith_head s q d cq hq hx
    rw [h1] at h2
    injection h2 with hcd2 _
    exact absurd hcd2 hcd

/-- A parse step on a no-newline marker line leaves the state unchanged:
both counters go up by one and immediately back down. -/
theorem parseStep_marker (s : DiffState) (raw : String)
    (h4 : pyRstrip raw = noNewlineMarker) :
    parseStep s raw = some s := by
  have h1 : pyStartswith noNewlineMarker "@@" = false := by decide
  have h2 : pyStartswith noNewlineMarker "-" = false := by decide
  have h3 : pyStartswith noNewlineMarker "+" = false := by decide
  unfold parseStep
  simp only [h4, h1, h2, h3, Bool.false_eq_true, if_false, if_true, ite_true,
    ite_false, eq_self_iff_true, Option.some_inj]
  simp

/-- A parse step on a `-` line: the deletions counter advances and the
entry is recorded; the additions counter is corrected back. -/
theorem parseStep_dash (s : DiffState) (raw : String)
    (h2 : pyStartswith (pyRstrip raw) "-" = true) :
    parseStep s raw = some
      { countDeletions := s.countDeletions + 1, countAdditions := s.countAdditions,
        added := s.added,
        deleted := s.deleted ++ [(s.countDeletions + 1, pyDrop1 (pyRstrip raw))] } := by
  have h1 : pyStartswith (pyRstrip raw) "@@" = false :=
    pyStartswith_clash _ "-" "@@" '-' '@' [] ['@'] (by decide) (by decide)
      (by decide) h2
  have h3 : pyStartswith (pyRstrip raw) "+" = false :=
    pyStartswith_clash _ "-" "+" '-' '+' [] [] (by decide) (by decide)
      (by decide) h2
  have h4 : ¬ (pyRstrip raw = noNewlineMarker) := by
    intro he
    rw [he] at h2
    exact absurd h2 (by decide)
  unfold parseStep
  simp only [h1, h2, h3, h4, Bool.false_eq_true, if_false, if_true, ite_true,
    ite_false, Option.some_inj]
  simp

/-- A parse step on a `+` line: the additions counter advances and the
entry is recorded; the deletions counter is corrected back. -/
theorem parseStep_plus (s : DiffState) (raw : String)
    (h3 : pyStartswith (pyRstrip raw) "+" = true) :
    parseStep s raw = some
      { countDeletions := s.countDeletions, countAdditions := s.countAdditions + 1,
        added := s.added ++ [(s.countAdditions + 1, pyDrop1 (pyRstrip raw))],
        deleted := s.deleted } := by
  have h1 : pyStartswith (pyRstrip raw) "@@" = false :=
    pyStartswith_clash _ "+" "@@" '+' '@' [] ['@'] (by decide) (by decide)
      (by decide) h3
  have h2 : pyStartswith (pyRstrip raw) "-" = false :=
    pyStartswith_clash _ "+" "-" '+' '-' [] [] (by decide) (by decide)
      (by decide) h3
  have h4 : ¬ (pyRstrip raw = noNewlineMarker) := by
    intro he
    rw [he] at h3
    exact absurd h3 (by decide)
  unfold parseStep
  simp only [h1, h2, h3, h4, Bool.false_eq_true, if_false, if_true, ite_true,
    ite_false, Option.some_inj]
  simp

/-- A parse step on a well-formed hunk header resets both counters. -/
theorem parseStep_header (s : DiffState) (raw : String) (p : Int × Int)
    (h1 : pyStartswith (pyRstrip raw) "@@" = true)
    (hg : getLineNumbers (pyRstrip raw) = some p) :
    parseStep s raw = some
      { countDeletions := p.1, countAdditions := p.2,
        added := s.added, deleted := s.deleted } := by
  have h2 : pyStartswith (pyRstrip raw) "-" = false :=
    pyStartswith_clash _ "@@" "-" '@' '-' ['@'] [] (by decide) (by decide)
      (by decide) h1
  have h3 : pyStartswith (pyRstrip raw) "+" = false :=
    pyStartswith_clash _ "@@" "+" '@' '+' ['@'] [] (by decide) (by decide)
      (by decide) h1
  have h4 : ¬ (pyRstrip raw = noNewlineMarker) := by
    intro he
    rw [he] at h1
    exact absurd h1 (by decide)
  unfold parseStep
  simp only [h1, h2, h3, h4, hg, Bool.false_eq_true, if_false, if_true,
    ite_true, ite_false, Option.map_some']

/-- A parse step on a malformed hunk header raises. -/
theorem parseStep_header_fail (s : DiffState) (raw : String)
    (h1 : pyStartswith (pyRstrip raw) "@@" = true)
    (hg : getLineNumbers (pyRstrip raw) = none) :
    parseStep s raw = none := by
  unfold parseStep
  simp only [h1, hg, if_true, Option.map_none']

/-- A parse step on a plain context line advances both counters. -/
theorem parseStep_plain (s : DiffState) (raw : String)
    (h1 : pyStartswith (pyRstrip raw) "@@" = false)
    (h2 : pyStartswith (pyRstrip raw) "-" = false)
    (h3 : pyStartswith (pyRstrip raw) "+" = false)
    (h4 : ¬ (pyRstrip raw = noNewlineMarker)) :
    parseStep s raw = some
      { countDeletions := s.countDeletions + 1,
        countAdditions := s.countAdditions + 1,
        added := s.added, deleted := s.deleted } := by
  unfold parseStep
  simp only [h1, h2, h3, h4, Bool.false_eq_true, if_false, if_true, ite_true,
    ite_false]

/-- The texts a single parse step appends to the two output lists: exactly
the right-stripped line without its first character, on the side selected
by that first character. -/
theorem parseStep_texts (s s2 : DiffState) (raw : String)
    (h : parseStep s raw = some s2) :
    s2.deleted.map Prod.snd = s.deleted.map Prod.snd ++
      (if pyStartswith (pyRstrip raw) "-" then [pyDrop1 (pyRstrip raw)] else []) ∧
    s2.added.map Prod.snd = s.added.map Prod.snd ++
      (if pyStartswith (pyRstrip raw) "+" then [pyDrop1 (pyRstrip raw)] else []) := by
  by_cases h4 : pyRstrip raw = noNewlineMarker
  · rw [parseStep_marker s raw h4] at h
    injection h with h5
    subst h5
    have hd : pyStartswith (pyRstrip raw) "-" = false := by rw [h4]; decide
    have hp : pyStartswith (pyRstrip raw) "+" = false := by rw [h4]; decide
    simp [hd, hp]
  · by_cases h2 : pyStartswith (pyRstrip raw) "-"
    · rw [parseStep_dash s raw h2] at h
      injection h with h5
      subst h5
      have h3 : pyStartswith (pyRstrip raw) "+" = false :=
        pyStartswith_clash _ "-" "+" '-' '+' [] [] (by decide) (by decide)
          (by decide) h2
      simp [h2, h3]
    · by_cases h3 : pyStartswith (pyRstrip raw) "+"
      · rw [parseStep_plus s raw h3] at h
        injection h with h5
        subst h5
        simp [h2, h3]
      · by_cases h1 : pyStartswith (pyRstrip raw) "@@"
        · cases hg : getLineNumbers (pyRstrip raw) with
          | none =>
            rw [parseStep_header_fail s raw h1 hg] at h
            cases h
          | some p =>
            rw [parseStep_header s raw p h1 hg] at h
            injection h with h5
            subst h5
            simp [h2, h3]
        · have h1f : pyStartswith (pyRstrip raw) "@@" = false := by
            cases hx : pyStartswith (pyRstrip raw) "@@" with
            | false => rfl
            | true => exact absurd hx h1
          have h2f : pyStartswith (pyRstrip raw) "-" = false := by
            cases hx : pyStartswith (pyRstrip raw) "-" with
            | false => rfl
            | true => exact absurd hx h2
          have h3f : pyStartswith (pyRstrip raw) "+" = false := by
            cases hx : pyStartswith (pyRstrip raw) "+" with
            | false => rfl
            | true => exact absurd hx h3
          rw [parseStep_plain s raw h1f h2f h3f h4] at h
          injection h with h5
          subst h5
          simp [h2f, h3f]

/-- Folding the parse loop appends, per processed line, exactly the texts
of the `-` lines to `deleted` and of the `+` lines to `added`. -/
theorem foldl_parse_texts (lines : List String) (s s2 : DiffState)
    (h : lines.foldlM parseStep s = some s2) :
    s2.deleted.map Prod.snd = s.deleted.map Prod.snd ++
      ((lines.map pyRstrip).filter (fun l => pyStartswith l "-")).map pyDrop1 ∧
    s2.added.map Prod.snd = s.added.map Prod.snd ++
      ((lines.map pyRstrip).filter (fun l => pyStartswith l "+")).map pyDrop1 := by
  induction lines generalizing s with
  | nil =>
    rw [List.foldlM_nil] at h
    have h2 : (some s : Option DiffState) = some s2 := h
    injection h2 with h3
    subst h3
    simp
  | cons l ls ih =>
    rw [List.foldlM_cons] at h
    cases hp : parseStep s l with
    | none =>
      rw [hp] at h
      exact absurd ((rfl : (none : Option DiffState) = none).trans h)
        (by simp)
    | some sm =>
      rw [hp] at h
      have h2 : ls.foldlM parseStep sm = some s2 := h
      obtain ⟨hd1, ha1⟩ := parseStep_texts s sm l hp
      obtain ⟨hd, ha⟩ := ih sm h2
      constructor
      · rw [hd, hd1]
        simp only [List.map_cons, List.filter_cons]
        by_cases hc : pyStartswith (pyRstrip l) "-" <;>
          simp [hc, List.append_assoc]
      · rw [ha, ha1]
        simp only [List.map_cons, List.filter_cons]
        by_cases hc : pyStartswith (pyRstrip l) "+" <;>
          simp [hc, List.append_assoc]

/-- C8: `parse_diff` classifies purely by leading character, so the deleted
texts are exactly the right-stripped input lines starting with `-`, first
character removed, and the added texts exactly those starting with `+` — in
particular a full-file `---` header line lands in `deleted` and a `+++`
header line in `added`, as the concrete run on `c8Diff` shows, at whatever
counter values are current when they are scanned. -/
theorem claim_C8 (D : String) (r : ParsedDiff) (h : parseDiff D = some r) :
    r.deleted.map Prod.snd =
      (((pySplitChar '\n' D).map pyRstrip).filter
        (fun l => pyStartswith l "-")).map pyDrop1 ∧
    r.added.map Prod.snd =
      (((pySplitChar '\n' D).map pyRstrip).filter
        (fun l => pyStartswith l "+")).map pyDrop1 ∧
    parseDiff c8Diff = some c8Parsed := by
  unfold parseDiff at h
  cases hf : (pySplitChar '\n' D).foldlM parseStep
      { countDeletions := 0, countAdditions := 0, added := [], deleted := [] } with
  | none => rw [hf] at h; simp at h
  | some s2 =>
    rw [hf] at h
    simp only [Option.map_some', Option.some_inj] at h
    obtain ⟨hdel, hadd⟩ := foldl_parse_texts _ _ _ hf
    subst h
    exact ⟨by simpa using hdel, by simpa using hadd, by decide⟩

/-- Witness for C8 at the concrete diff `c8Diff`, which carries `---` and
`+++` file header lines. -/
theorem claim_C8_witness :
    c8Parsed.deleted.map Prod.snd =
      (((pySplitChar '\n' c8Diff).map pyRstrip).filter
        (fun l => pyStartswith l "-")).map pyDrop1 ∧
    c8Parsed.added.map Prod.snd =
      (((pySplitChar '\n' c8Diff).map pyRstrip).filter
        (fun l => pyStartswith l "+")).map pyDrop1 ∧
    parseDiff c8Diff = some c8Parsed :=
  claim_C8 c8Diff c8Parsed (by decide)

/-- For a RENAME modification, the attribution loop only ever writes under
the modification's new path: every other key of the map keeps its incoming
value. -/
theorem innerLoop_rename_keys (env : GitEnv) (mod : Modification)
    (blame : List String) (deleted : List (Int × String)) (path : Option String)
    (m m2 : AttrMap) (hrn : mod.change_type = ModificationType.RENAME)
    (h : innerLoop env mod blame deleted path m = .ok m2) :
    ∀ k, k ≠ mod.new_path → m2 k = m k := by
  induction deleted generalizing path m with
  | nil =>
    have h2 : (Except.ok m : Except PyError AttrMap) = .ok m2 := h
    injection h2 with h3
    subst h3
    intro k _
    rfl
  | cons hd tl ih =>
    obtain ⟨num, line⟩ := hd
    by_cases hu : uselessLine (pyStrip line)
    · simp only [innerLoop, hu, if_true] at h
      exact ih path m h
    · simp only [innerLoop, hu, Bool.false_eq_true, if_false] at h
      cases hi : pyIndex blame (num - 1) with
      | none =>
        rw [hi] at h
        exact Except.noConfusion h
      | some bl =>
        rw [hi] at h
        simp only [hrn, eq_self_iff_true, ite_true] at h
        intro k hk
        rw [ih _ _ h k hk]
        unfold addAttr
        rw [if_neg hk]

/-- C2: for every RENAME modification processed by the attribution engine,
blame is obtained for the old path (at the parent of the analyzed commit)
while every resulting introducing-commit hash is stored under the
modification's new path: the blame path of a RENAME is its old path, the
attribution loop leaves every key other than the new path untouched, and
the concrete RENAME `a.py` to `b.py` with one attributable deleted line
yields an entry keyed `b.py` and nothing keyed `a.py`. -/
theorem claim_C2 :
    (∀ mod : Modification, mod.change_type = ModificationType.RENAME →
      blamePathOf mod = mod.old_path) ∧
    (∀ (env : GitEnv) (mod : Modification) (blame : List String)
        (deleted : List (Int × String)) (path : Option String) (m m2 : AttrMap),
      mod.change_type = ModificationType.RENAME →
      innerLoop env mod blame deleted path m = .ok m2 →
      ∀ k, k ≠ mod.new_path → m2 k = m k) ∧
    (getCommitsLastModifiedLines c2Env noFs c2Commit none false none).map
        (fun m => (m (some "b.py"), m (some "a.py"))) =
      .ok ({"deadbeef"}, (∅ : Finset String)) := by
  refine ⟨?_, ?_, by decide⟩
  · intro mod hm
    unfold blamePathOf
    rw [hm]
    simp
  · intro env mod blame deleted path m m2 hrn h
    exact innerLoop_rename_keys env mod blame deleted path m m2 hrn h

/-- Witness for C2 at the concrete rename fixture. -/
theorem claim_C2_witness :
    blamePathOf c2Mod = c2Mod.old_path ∧
    c2MapAfter (some "a.py") = emptyAttrMap (some "a.py") :=
  ⟨claim_C2.1 c2Mod rfl,
   claim_C2.2.1 c2Env c2Mod c2Blame [(1, "x")] (some "a.py") emptyAttrMap
     c2MapAfter rfl rfl (some "a.py") (by decide)⟩

/-- A false Boolean equation, flipped. -/
theorem bool_eq_false_of_not {b : Bool} (h : ¬ b = true) : b = false := by
  cases b with
  | false => rfl
  | true => exact absurd rfl h

/-- Instrumented parse step on a no-newline marker line: state unchanged. -/
theorem parseStepH_marker (s : HDiffState) (raw : String)
    (h4 : pyRstrip raw = noNewlineMarker) :
    parseStepH s raw = some s := by
  have h1 : pyStartswith noNewlineMarker "@@" = false := by decide
  have h2 : pyStartswith noNewlineMarker "-" = false := by decide
  have h3 : pyStartswith noNewlineMarker "+" = false := by decide
  unfold parseStepH
  simp only [h4, h1, h2, h3, Bool.false_eq_true, if_false, if_true, ite_true,
    ite_false, eq_self_iff_true, Option.some_inj]
  simp

/-- Instrumented parse step on a `-` line. -/
theorem parseStepH_dash (s : HDiffState) (raw : String)
    (h2 : pyStartswith (pyRstrip raw) "-" = true) :
    parseStepH s raw = some
      { countDeletions := s.countDeletions + 1, countAdditions := s.countAdditions,
        hunk := s.hunk, added := s.added,
        deleted := s.deleted ++
          [(s.hunk, s.countDeletions + 1, pyDrop1 (pyRstrip raw))] } := by
  have h1 : pyStartswith (pyRstrip raw) "@@" = false :=
    pyStartswith_clash _ "-" "@@" '-' '@' [] ['@'] (by decide) (by decide)
      (by decide) h2
  have h3 : pyStartswith (pyRstrip raw) "+" = false :=
    pyStartswith_clash _ "-" "+" '-' '+' [] [] (by decide) (by decide)
      (by decide) h2
  have h4 : ¬ (pyRstrip raw = noNewlineMarker) := by
    intro he
    rw [he] at h2
    exact absurd h2 (by decide)
  unfold parseStepH
  simp only [h1, h2, h3, h4, Bool.false_eq_true, if_false, if_true, ite_true,
    ite_false, Option.some_inj]
  simp

/-- Instrumented parse step on a `+` line. -/
theorem parseStepH_plus (s : HDiffState) (raw : String)
    (h3 : pyStartswith (pyRstrip raw) "+" = true) :
    parseStepH s raw = some
      { countDeletions := s.countDeletions, countAdditions := s.countAdditions + 1,
        hunk := s.hunk,
        added := s.added ++
          [(s.hunk, s.countAdditions + 1, pyDrop1 (pyRstrip raw))],
        deleted := s.deleted } := by
  have h1 : pyStartswith (pyRstrip raw) "@@" = false :=
    pyStartswith_clash _ "+" "@@" '+' '@' [] ['@'] (by decide) (by decide)
      (by decide) h3
  have h2 : pyStartswith (pyRstrip raw) "-" = false :=
    pyStartswith_clash _ "+" "-" '+' '-' [] [] (by decide) (by decide)
      (by decide) h3
  have h4 : ¬ (pyRstrip raw = noNewlineMarker) := by
    intro he
    rw [he] at h3
    exact absurd h3 (by decide)
  unfold parseStepH
  simp only [h1, h2, h3, h4, Bool.false_eq_true, if_false, if_true, ite_true,
    ite_false, Option.some_inj]
  simp

/-- Instrumented parse step on a well-formed hunk header: counters reset,
hunk index advances. -/
theorem parseStepH_header (s : HDiffState) (raw : String) (p : Int × Int)
    (h1 : pyStartswith (pyRstrip raw) "@@" = true)
    (hg : getLineNumbers (pyRstrip raw) = some p) :
    parseStepH s raw = some
      { countDeletions := p.1, countAdditions := p.2, hunk := s.hunk + 1,
        added := s.added, deleted := s.deleted } := by
  have h2 : pyStartswith (pyRstrip raw) "-" = false :=
    pyStartswith_clash _ "@@" "-" '@' '-' ['@'] [] (by decide) (by decide)
      (by decide) h1
  have h3 : pyStartswith (pyRstrip raw) "+" = false :=
    pyStartswith_clash _ "@@" "+" '@' '+' ['@'] [] (by decide) (by decide)
      (by decide) h1
  have h4 : ¬ (pyRstrip raw = noNewlineMarker) := by
    intro he
    rw [he] at h1
    exact absurd h1 (by decide)
  unfold parseStepH
  simp only [h1, h2, h3, h4, hg, Bool.false_eq_true, if_false, if_true,
    ite_true, ite_false, Option.map_some']

/-- Instrumented parse step on a malformed hunk header: it raises. -/
theorem parseStepH_header_fail (s : HDiffState) (raw : String)
    (h1 : pyStartswith (pyRstrip raw) "@@" = true)
    (hg : getLineNumbers (pyRstrip raw) = none) :
    parseStepH s raw = none := by
  unfold parseStepH
  simp only [h1, hg, if_true, Option.map_none']

/-- Instrumented parse step on a plain context line. -/
theorem parseStepH_plain (s : HDiffState) (raw : String)
    (h1 : pyStartswith (pyRstrip raw) "@@" = false)
    (h2 : pyStartswith (pyRstrip raw) "-" = false)
    (h3 : pyStartswith (pyRstrip raw) "+" = false)
    (h4 : ¬ (pyRstrip raw = noNewlineMarker)) :
    parseStepH s raw = some
      { countDeletions := s.countDeletions + 1,
        countAdditions := s.countAdditions + 1,
        hunk := s.hunk, added := s.added, deleted := s.deleted } := by
  unfold parseStepH
  simp only [h1, h2, h3, h4, Bool.false_eq_true, if_false, if_true, ite_true,
    ite_false]

/-- Erasing the ghost hunk tags commutes with a parse step: the
instrumented step simulates `parse_diff`'s step exactly. -/
theorem parseStep_eraseHunkTags (s : HDiffState) (raw : String) :
    parseStep (eraseHunkTags s) raw = (parseStepH s raw).map eraseHunkTags := by
  by_cases h4 : pyRstrip raw = noNewlineMarker
  · rw [parseStep_marker _ raw h4, parseStepH_marker s raw h4, Option.map_some']
  · by_cases h2 : pyStartswith (pyRstrip raw) "-"
    · rw [parseStep_dash _ raw h2, parseStepH_dash s raw h2, Option.map_some']
      simp [eraseHunkTags]
    · by_cases h3 : pyStartswith (pyRstrip raw) "+"
      · rw [parseStep_plus _ raw h3, parseStepH_plus s raw h3, Option.map_some']
        simp [eraseHunkTags]
      · by_cases h1 : pyStartswith (pyRstrip raw) "@@"
        · cases hg : getLineNumbers (pyRstrip raw) with
          | none =>
            rw [parseStep_header_fail _ raw h1 hg,
              parseStepH_header_fail s raw h1 hg]
            rfl
          | some p =>
            rw [parseStep_header _ raw p h1 hg, parseStepH_header s raw p h1 hg,
              Option.map_some']
            simp [eraseHunkTags]
        · rw [parseStep_plain _ raw (bool_eq_false_of_not h1)
              (bool_eq_false_of_not h2) (bool_eq_false_of_not h3) h4,
            parseStepH_plain s raw (bool_eq_false_of_not h1)
              (bool_eq_false_of_not h2) (bool_eq_false_of_not h3) h4,
            Option.map_some']
          simp [eraseHunkTags]

/-- Erasure commutes with the whole parse fold. -/
theorem foldlM_parseStep_erase (lines : List String) (s : HDiffState) :
    lines.foldlM parseStep (eraseHunkTags s) =
      (lines.foldlM parseStepH s).map eraseHunkTags := by
  induction lines generalizing s with
  | nil => rfl
  | cons l ls ih =>
    rw [List.foldlM_cons, List.foldlM_cons, parseStep_eraseHunkTags]
    cases parseStepH s l with
    | none => rfl
    | some s2 =>
      rw [Option.map_some']
      exact ih s2

/-- The entry invariant holds of an empty output list. -/
theorem entriesInv_nil (hunk : Nat) (cnt : Int) : entriesInv hunk cnt [] :=
  ⟨List.Pairwise.nil, fun e he => absurd he (List.not_mem_nil e)⟩

/-- The entry invariant survives a counter increase. -/
theorem entriesInv_mono_cnt (hunk : Nat) (cnt cnt2 : Int)
    (l : List (Nat × Int × String)) (h : entriesInv hunk cnt l)
    (hle : cnt ≤ cnt2) : entriesInv hunk cnt2 l :=
  ⟨h.1, fun e he => ⟨(h.2 e he).1, fun hh => le_trans ((h.2 e he).2 hh) hle⟩⟩

/-- The entry invariant survives a hunk advance, whatever the new counter
value: no recorded entry can belong to the new hunk yet. -/
theorem entriesInv_hunk_bump (hunk : Nat) (cnt cnt2 : Int)
    (l : List (Nat × Int × String)) (h : entriesInv hunk cnt l) :
    entriesInv (hunk + 1) cnt2 l := by
  refine ⟨h.1, fun e he => ⟨le_trans (h.2 e he).1 (Nat.le_succ hunk),
    fun hh => ?_⟩⟩
  exfalso
  have hle := (h.2 e he).1
  rw [hh] at hle
  exact Nat.not_succ_le_self hunk hle

/-- The entry invariant survives appending an entry of the current hunk at
a strictly larger line number than the counter bound. -/
theorem entriesInv_append (hunk : Nat) (cntOld cval : Int)
    (l : List (Nat × Int × String)) (txt : String)
    (h : entriesInv hunk cntOld l) (hlt : cntOld < cval) :
    entriesInv hunk cval (l ++ [(hunk, cval, txt)]) := by
  constructor
  · rw [List.pairwise_append]
    refine ⟨h.1, List.pairwise_singleton _ _, fun a ha b hb => ?_⟩
    rw [List.mem_singleton] at hb
    subst hb
    intro htag
    exact lt_of_le_of_lt ((h.2 a ha).2 htag) hlt
  · intro e he
    rw [List.mem_append, List.mem_singleton] at he
    cases he with
    | inl hin =>
      exact ⟨(h.2 e hin).1,
        fun hh => le_of_lt (lt_of_le_of_lt ((h.2 e hin).2 hh) hlt)⟩
    | inr hin =>
      subst hin
      exact ⟨le_refl hunk, fun _ => le_refl cval⟩

/-- A successful instrumented parse step preserves the state invariant. -/
theorem parseStepH_inv (s s2 : HDiffState) (raw : String)
    (hinv : hStateInv s) (h : parseStepH s raw = some s2) : hStateInv s2 := by
  by_cases h4 : pyRstrip raw = noNewlineMarker
  · rw [parseStepH_marker s raw h4] at h
    injection h with h5
    subst h5
    exact hinv
  · by_cases h2 : pyStartswith (pyRstrip raw) "-"
    · rw [parseStepH_dash s raw h2] at h
      injection h with h5
      subst h5
      exact ⟨entriesInv_append s.hunk s.countDeletions (s.countDeletions + 1)
          s.deleted (pyDrop1 (pyRstrip raw)) hinv.1 (lt_add_one _),
        hinv.2⟩
    · by_cases h3 : pyStartswith (pyRstrip raw) "+"
      · rw [parseStepH_plus s raw h3] at h
        injection h with h5
        subst h5
        exact ⟨hinv.1,
          entriesInv_append s.hunk s.countAdditions (s.countAdditions + 1)
            s.added (pyDrop1 (pyRstrip raw)) hinv.2 (lt_add_one _)⟩
      · by_cases h1 : pyStartswith (pyRstrip raw) "@@"
        · cases hg : getLineNumbers (pyRstrip raw) with
          | none =>
            rw [parseStepH_header_fail s raw h1 hg] at h
            exact Option.noConfusion h
          | some p =>
            rw [parseStepH_header s raw p h1 hg] at h
            injection h with h5
            subst h5
            exact ⟨entriesInv_hunk_bump _ _ _ _ hinv.1,
              entriesInv_hunk_bump _ _ _ _ hinv.2⟩
        · rw [parseStepH_plain s raw (bool_eq_false_of_not h1)
            (bool_eq_false_of_not h2) (bool_eq_false_of_not h3) h4] at h
          injection h with h5
          subst h5
          exact ⟨entriesInv_mono_cnt _ _ _ _ hinv.1 (le_of_lt (lt_add_one _)),
            entriesInv_mono_cnt _ _ _ _ hinv.2 (le_of_lt (lt_add_one _))⟩

/-- The state invariant is preserved along the whole instrumented fold. -/
theorem foldlM_parseStepH_inv (lines : List String) (s s2 : HDiffState)
    (hinv : hStateInv s) (h : lines.foldlM parseStepH s = some s2) :
    hStateInv s2 := by
  induction lines generalizing s with
  | nil =>
    have h2 : (some s : Option HDiffState) = some s2 := h
    injection h2 with h3
    subst h3
    exact hinv
  | cons l ls ih =>
    cases hp : parseStepH s l with
    | none =>
      rw [List.foldlM_cons, hp] at h
      have h3 : (none : Option HDiffState) = some s2 := h
      exact Option.noConfusion h3
    | some sm =>
      rw [List.foldlM_cons, hp] at h
      have h2 : ls.foldlM parseStepH sm = some s2 := h
      exact ih sm (parseStepH_inv s sm l hinv hp) h2

/-- C3: for every diff text, the line numbers `parse_diff` emits within any
single hunk are strictly increasing — strictly non-decreasing with no
number occurring twice — for the deleted list, and the same holds for the
added list. Formally: the hunk-instrumented run, whose ghost-tag erasure is
exactly `parse_diff`, ends with tagged output lists that are pairwise
strictly increasing within equal hunk tags. -/
theorem claim_C3 (D : String) (sH : HDiffState) (h : parseDiffH D = some sH) :
    parseDiff D = some { added := sH.added.map Prod.snd,
                         deleted := sH.deleted.map Prod.snd } ∧
    sH.deleted.Pairwise sameHunkLt ∧ sH.added.Pairwise sameHunkLt := by
  unfold parseDiffH at h
  refine ⟨?_, ?_, ?_⟩
  · unfold parseDiff
    have he : DiffState.mk 0 0 [] [] =
        eraseHunkTags (HDiffState.mk 0 0 0 [] []) := rfl
    rw [he, foldlM_parseStep_erase, h]
    rfl
  · exact (foldlM_parseStepH_inv _ _ _
      ⟨entriesInv_nil _ _, entriesInv_nil _ _⟩ h).1.1
  · exact (foldlM_parseStepH_inv _ _ _
      ⟨entriesInv_nil _ _, entriesInv_nil _ _⟩ h).2.1

/-- Witness for C3 at the concrete two-hunk diff `c3Diff`. -/
theorem claim_C3_witness :
    parseDiff c3Diff = some { added := c3HState.added.map Prod.snd,
                              deleted := c3HState.deleted.map Prod.snd } ∧
    c3HState.deleted.Pairwise sameHunkLt ∧
    c3HState.added.Pairwise sameHunkLt :=
  claim_C3 c3Diff c3HState (by decide)

/-- The starting-boundary check raises the configuration error whenever
more than one member of its group is set. -/
theorem checkStartingCommit_group_err (repo : RepoModel) (s : MiningState)
    (hfrom : onlyOneFilter [s.since.isSome, s.from_tag.isSome,
      s.from_commit.isSome] = false) :
    checkStartingCommit repo s = .error (.exceptionMsg onlyOneFilterMsg) := by
  unfold checkStartingCommit
  rw [hfrom]
  rfl

/-- The ending-boundary check raises the configuration error whenever more
than one member of its group is set. -/
theorem checkEndingCommit_group_err (repo : RepoModel) (s : MiningState)
    (hto : onlyOneFilter [s.toDate.isSome, s.to_commit.isSome,
      s.to_tag.isSome] = false) :
    checkEndingCommit repo s = .error (.exceptionMsg onlyOneFilterMsg) := by
  unfold checkEndingCommit
  rw [hto]
  rfl

/-- A successful starting-boundary check only ever updates `since`: the
ending group of the state comes out unchanged. -/
theorem checkStartingCommit_to_fields (repo : RepoModel) (s s1 : MiningState)
    (h : checkStartingCommit repo s = .ok s1) :
    s1.toDate = s.toDate ∧ s1.to_commit = s.to_commit ∧
    s1.to_tag = s.to_tag := by
  unfold checkStartingCommit at h
  by_cases hf : onlyOneFilter [s.since.isSome, s.from_tag.isSome,
      s.from_commit.isSome]
  case neg =>
    rw [bool_eq_false_of_not hf] at h
    exact Except.noConfusion h
  case pos =>
    rw [hf] at h
    simp only [Bool.not_true, Bool.false_eq_true, if_false] at h
    cases hc : s.from_commit with
    | none =>
      rw [hc] at h
      simp only [] at h
      cases ht : s.from_tag with
      | none =>
        rw [ht] at h
        injection h with h2
        subst h2
        exact ⟨rfl, rfl, rfl⟩
      | some t =>
        rw [ht] at h
        simp only [] at h
        cases htd : repo.tagDate t with
        | none => rw [htd] at h; exact Except.noConfusion h
        | some d =>
          rw [htd] at h
          injection h with h2
          subst h2
          exact ⟨rfl, rfl, rfl⟩
    | some hcm =>
      rw [hc] at h
      simp only [] at h
      cases hcd : repo.commitDate hcm with
      | none => rw [hcd] at h; exact Except.noConfusion h
      | some d =>
        rw [hcd] at h
        simp only [] at h
        cases ht : s.from_tag with
        | none =>
          rw [ht] at h
          injection h with h2
          subst h2
          exact ⟨rfl, rfl, rfl⟩
        | some t =>
          rw [ht] at h
          simp only [] at h
          cases htd : repo.tagDate t with
          | none => rw [htd] at h; exact Except.noConfusion h
          | some d2 =>
            rw [htd] at h
            injection h with h2
            subst h2
            exact ⟨rfl, rfl, rfl⟩

/-- With its group well-formed, the starting-boundary check can only fail
on boundary resolution (unknown revision or tag), never with the
configuration error. -/
theorem checkStartingCommit_err_classify (repo : RepoModel) (s : MiningState)
    (hfrom : onlyOneFilter [s.since.isSome, s.from_tag.isSome,
      s.from_commit.isSome] = true)
    (e : PyError) (h : checkStartingCommit repo s = .error e) :
    e = .badName ∨ e = .indexError := by
  unfold checkStartingCommit at h
  rw [hfrom] at h
  simp only [Bool.not_true, Bool.false_eq_true, if_false] at h
  cases hc : s.from_commit with
  | none =>
    rw [hc] at h
    simp only [] at h
    cases ht : s.from_tag with
    | none => rw [ht] at h; exact Except.noConfusion h
    | some t =>
      rw [ht] at h
      simp only [] at h
      cases htd : repo.tagDate t with
      | none => rw [htd] at h; injection h with h2; exact Or.inr h2.symm
      | some d => rw [htd] at h; exact Except.noConfusion h
  | some hcm =>
    rw [hc] at h
    simp only [] at h
    cases hcd : repo.commitDate hcm with
    | none => rw [hcd] at h; injection h with h2; exact Or.inl h2.symm
    | some d =>
      rw [hcd] at h
      simp only [] at h
      cases ht : s.from_tag with
      | none => rw [ht] at h; exact Except.noConfusion h
      | some t =>
        rw [ht] at h
        simp only [] at h
        cases htd : repo.tagDate t with
        | none => rw [htd] at h; injection h with h2; exact Or.inr h2.symm
        | some d2 => rw [htd] at h; exact Except.noConfusion h

/-- With its group well-formed, the ending-boundary check can only fail on
boundary resolution, never with the configuration error. -/
theorem checkEndingCommit_err_classify (repo : RepoModel) (s : MiningState)
    (hto : onlyOneFilter [s.toDate.isSome, s.to_commit.isSome,
      s.to_tag.isSome] = true)
    (e : PyError) (h : checkEndingCommit repo s = .error e) :
    e = .badName ∨ e = .indexError := by
  unfold checkEndingCommit at h
  rw [hto] at h
  simp only [Bool.not_true, Bool.false_eq_true, if_false] at h
  cases hc : s.to_commit with
  | none =>
    rw [hc] at h
    simp only [] at h
    cases ht : s.to_tag with
    | none => rw [ht] at h; exact Except.noConfusion h
    | some t =>
      rw [ht] at h
      simp only [] at h
      cases htd : repo.tagDate t with
      | none => rw [htd] at h; injection h with h2; exact Or.inr h2.symm
      | some d => rw [htd] at h; exact Except.noConfusion h
  | some hcm =>
    rw [hc] at h
    simp only [] at h
    cases hcd : repo.commitDate hcm with
    | none => rw [hcd] at h; injection h with h2; exact Or.inl h2.symm
    | some d =>
      rw [hcd] at h
      simp only [] at h
      cases ht : s.to_tag with
      | none => rw [ht] at h; exact Except.noConfusion h
      | some t =>
        rw [ht] at h
        simp only [] at h
        cases htd : repo.tagDate t with
        | none => rw [htd] at h; injection h with h2; exact Or.inr h2.symm
        | some d2 => rw [htd] at h; exact Except.noConfusion h

/-- With more than one member set in either boundary group, the filter
sanity check cannot succeed. -/
theorem sanityCheckFilters_err (repo : RepoModel) (s : MiningState)
    (hbad : onlyOneFilter [s.since.isSome, s.from_tag.isSome,
        s.from_commit.isSome] = false ∨
      onlyOneFilter [s.toDate.isSome, s.to_commit.isSome,
        s.to_tag.isSome] = false) :
    ∀ s1, sanityCheckFilters repo s ≠ .ok s1 := by
  intro s1 hok
  unfold sanityCheckFilters at hok
  split at hok
  · exact Except.noConfusion hok
  · cases hcs : checkStartingCommit repo s with
    | error e => rw [hcs] at hok; exact Except.noConfusion hok
    | ok s2 =>
      rw [hcs] at hok
      simp only [] at hok
      cases hbad with
      | inl hfrom =>
        rw [checkStartingCommit_group_err repo s hfrom] at hcs
        exact Except.noConfusion hcs
      | inr hto =>
        obtain ⟨h1, h2, h3⟩ := checkStartingCommit_to_fields repo s s2 hcs
        have hto2 : onlyOneFilter [s2.toDate.isSome, s2.to_commit.isSome,
            s2.to_tag.isSome] = false := by
          rw [h1, h2, h3]
          exact hto
        rw [checkEndingCommit_group_err repo s2 hto2] at hok
        exact Except.noConfusion hok

/-- With at most one member set in each boundary group, the filter sanity
check never raises the at-most-one configuration error (it may still
raise the single-commit error or a resolution error, which are different
exceptions). -/
theorem sanityCheckFilters_no_group_err (repo : RepoModel) (s : MiningState)
    (hfrom : onlyOneFilter [s.since.isSome, s.from_tag.isSome,
      s.from_commit.isSome] = true)
    (hto : onlyOneFilter [s.toDate.isSome, s.to_commit.isSome,
      s.to_tag.isSome] = true) :
    sanityCheckFilters repo s ≠ .error (.exceptionMsg onlyOneFilterMsg) := by
  intro hbad
  unfold sanityCheckFilters at hbad
  split at hbad
  · have hmsg : singleFilterMsg = onlyOneFilterMsg := by
      injection hbad with h2
      injection h2
    exact absurd hmsg (by decide)
  · cases hcs : checkStartingCommit repo s with
    | error e =>
      rw [hcs] at hbad
      injection hbad with h2
      rw [h2] at hcs
      cases checkStartingCommit_err_classify repo s hfrom _ hcs with
      | inl hb => exact PyError.noConfusion hb
      | inr hb => exact PyError.noConfusion hb
    | ok s2 =>
      rw [hcs] at hbad
      simp only [] at hbad
      obtain ⟨h1, h2, h3⟩ := checkStartingCommit_to_fields repo s s2 hcs
      have hto2 : onlyOneFilter [s2.toDate.isSome, s2.to_commit.isSome,
          s2.to_tag.isSome] = true := by
        rw [h1, h2, h3]
        exact hto
      cases checkEndingCommit_err_classify repo s2 hto2 _ hbad with
      | inl hb => exact PyError.noConfusion hb
      | inr hb => exact PyError.noConfusion hb

/-- Whatever the configuration, the starting-boundary check can only fail
with its at-most-one configuration error or a boundary-resolution error. -/
theorem checkStartingCommit_err_any (repo : RepoModel) (s : MiningState)
    (e : PyError) (h : checkStartingCommit repo s = .error e) :
    e = .exceptionMsg onlyOneFilterMsg ∨ e = .badName ∨ e = .indexError := by
  by_cases hb : onlyOneFilter [s.since.isSome, s.from_tag.isSome,
      s.from_commit.isSome]
  · rcases checkStartingCommit_err_classify repo s hb e h with h2 | h2
    · exact Or.inr (Or.inl h2)
    · exact Or.inr (Or.inr h2)
  · unfold checkStartingCommit at h
    rw [bool_eq_false_of_not hb] at h
    injection h with h2
    exact Or.inl h2.symm

/-- Whatever the configuration, the ending-boundary check can only fail
with its at-most-one configuration error or a boundary-resolution error. -/
theorem checkEndingCommit_err_any (repo : RepoModel) (s : MiningState)
    (e : PyError) (h : checkEndingCommit repo s = .error e) :
    e = .exceptionMsg onlyOneFilterMsg ∨ e = .badName ∨ e = .indexError := by
  by_cases hb : onlyOneFilter [s.toDate.isSome, s.to_commit.isSome,
      s.to_tag.isSome]
  · rcases checkEndingCommit_err_classify repo s hb e h with h2 | h2
    · exact Or.inr (Or.inl h2)
    · exact Or.inr (Or.inr h2)
  · unfold checkEndingCommit at h
    rw [bool_eq_false_of_not hb] at h
    injection h with h2
    exact Or.inl h2.symm

/-- The filter sanity check can only fail with one of its two
configuration errors or a boundary-resolution error. -/
theorem sanityCheckFilters_err_any (repo : RepoModel) (s : MiningState)
    (e : PyError) (h : sanityCheckFilters repo s = .error e) :
    e = .exceptionMsg singleFilterMsg ∨ e = .exceptionMsg onlyOneFilterMsg ∨
    e = .badName ∨ e = .indexError := by
  unfold sanityCheckFilters at h
  split at h
  · injection h with h2
    exact Or.inl h2.symm
  · cases hcs : checkStartingCommit repo s with
    | error e2 =>
      rw [hcs] at h
      injection h with h2
      subst h2
      rcases checkStartingCommit_err_any repo s e2 hcs with h3 | h3 | h3
      · exact Or.inr (Or.inl h3)
      · exact Or.inr (Or.inr (Or.inl h3))
      · exact Or.inr (Or.inr (Or.inr h3))
    | ok s2 =>
      rw [hcs] at h
      simp only [] at h
      rcases checkEndingCommit_err_any repo s2 e h with h3 | h3 | h3
      · exact Or.inr (Or.inl h3)
      · exact Or.inr (Or.inr (Or.inl h3))
      · exact Or.inr (Or.inr (Or.inr h3))

/-- With more than one member of the starting group set, the sanity check
fails with a configuration error proper: the single-commit error or the
at-most-one error. -/
theorem sanityCheckFilters_config_err (repo : RepoModel) (s : MiningState)
    (hfrom : onlyOneFilter [s.since.isSome, s.from_tag.isSome,
      s.from_commit.isSome] = false) :
    sanityCheckFilters repo s = .error (.exceptionMsg singleFilterMsg) ∨
    sanityCheckFilters repo s = .error (.exceptionMsg onlyOneFilterMsg) := by
  unfold sanityCheckFilters
  split
  · exact Or.inl rfl
  · rw [checkStartingCommit_group_err repo s hfrom]
    exact Or.inr rfl

/-- C4 counterexample: with `to` and `to_tag` both set — more than one
member of the ending group, so the claim demands a configuration error —
and an unresolvable `from_commit`, the source resolves the starting
boundary first and the traversal ends with the unknown-revision resolution
error `BadName`, which is neither of the two configuration errors the
sanity check can raise. -/
theorem claim_C4_counterexample :
    onlyOneFilter [c4CexState.toDate.isSome, c4CexState.to_commit.isSome,
      c4CexState.to_tag.isSome] = false ∧
    traverseCommits [c4Repo] c4CexState = ([], some PyError.badName) ∧
    PyError.badName ≠ PyError.exceptionMsg onlyOneFilterMsg ∧
    PyError.badName ≠ PyError.exceptionMsg singleFilterMsg :=
  ⟨by decide, by decide, by decide, by decide⟩

/-- C4 (amended): with more than one of since / from_tag / from_commit
set, traversal raises a configuration error (the single-commit error or
the at-most-one error) before yielding any commit. With more than one of
to / to_commit / to_tag set, traversal still raises before yielding any
commit, but the error may instead be a starting-boundary resolution error
(unknown revision or tag), because the source checks the starting boundary
first. A configuration with at most one member of each group set passes
this validation: the sanity check can then never raise the at-most-one
configuration error. -/
theorem claim_C4 :
    (∀ (repo : RepoModel) (rest : List RepoModel) (s : MiningState),
      onlyOneFilter [s.since.isSome, s.from_tag.isSome,
        s.from_commit.isSome] = false →
      (traverseCommits (repo :: rest) s).1 = [] ∧
      ((traverseCommits (repo :: rest) s).2 =
          some (.exceptionMsg singleFilterMsg) ∨
       (traverseCommits (repo :: rest) s).2 =
          some (.exceptionMsg onlyOneFilterMsg))) ∧
    (∀ (repo : RepoModel) (rest : List RepoModel) (s : MiningState),
      onlyOneFilter [s.toDate.isSome, s.to_commit.isSome,
        s.to_tag.isSome] = false →
      (traverseCommits (repo :: rest) s).1 = [] ∧
      ((traverseCommits (repo :: rest) s).2 =
          some (.exceptionMsg singleFilterMsg) ∨
       (traverseCommits (repo :: rest) s).2 =
          some (.exceptionMsg onlyOneFilterMsg) ∨
       (traverseCommits (repo :: rest) s).2 = some .badName ∨
       (traverseCommits (repo :: rest) s).2 = some .indexError)) ∧
    (∀ (repo : RepoModel) (s : MiningState),
      onlyOneFilter [s.since.isSome, s.from_tag.isSome,
        s.from_commit.isSome] = true →
      onlyOneFilter [s.toDate.isSome, s.to_commit.isSome,
        s.to_tag.isSome] = true →
      sanityCheckFilters repo s ≠ .error (.exceptionMsg onlyOneFilterMsg)) := by
  refine ⟨?_, ?_, ?_⟩
  · intro repo rest s hfrom
    unfold traverseCommits
    cases hs : sanityCheckFilters repo s with
    | error e =>
      refine ⟨rfl, ?_⟩
      rcases sanityCheckFilters_config_err repo s hfrom with h2 | h2 <;>
        rw [hs] at h2 <;> injection h2 with h3 <;> rw [h3]
      · exact Or.inl rfl
      · exact Or.inr rfl
    | ok s1 => exact absurd hs (sanityCheckFilters_err repo s (Or.inl hfrom) s1)
  · intro repo rest s hto
    unfold traverseCommits
    cases hs : sanityCheckFilters repo s with
    | error e =>
      refine ⟨rfl, ?_⟩
      rcases sanityCheckFilters_err_any repo s e hs with h2 | h2 | h2 | h2 <;>
        rw [h2]
      · exact Or.inl rfl
      · exact Or.inr (Or.inl rfl)
      · exact Or.inr (Or.inr (Or.inl rfl))
      · exact Or.inr (Or.inr (Or.inr rfl))
    | ok s1 => exact absurd hs (sanityCheckFilters_err repo s (Or.inr hto) s1)
  · intro repo s hfrom hto
    exact sanityCheckFilters_no_group_err repo s hfrom hto

/-- Witness for C4 (amended): the over-set starting group aborts with the
at-most-one configuration error, the over-set ending group aborts with one
of the admissible errors, and the configuration with one member per group
never sees the at-most-one error. -/
theorem claim_C4_witness :
    ((traverseCommits [c4Repo] c4BadState).1 = [] ∧
     ((traverseCommits [c4Repo] c4BadState).2 =
        some (.exceptionMsg singleFilterMsg) ∨
      (traverseCommits [c4Repo] c4BadState).2 =
        some (.exceptionMsg onlyOneFilterMsg))) ∧
    ((traverseCommits [c4Repo] c4BadToState).1 = [] ∧
     ((traverseCommits [c4Repo] c4BadToState).2 =
        some (.exceptionMsg singleFilterMsg) ∨
      (traverseCommits [c4Repo] c4BadToState).2 =
        some (.exceptionMsg onlyOneFilterMsg) ∨
      (traverseCommits [c4Repo] c4BadToState).2 = some .badName ∨
      (traverseCommits [c4Repo] c4BadToState).2 = some .indexError)) ∧
    sanityCheckFilters c4Repo c4GoodState ≠
      .error (.exceptionMsg onlyOneFilterMsg) :=
  ⟨claim_C4.1 c4Repo [] c4BadState (by decide),
   claim_C4.2.1 c4Repo [] c4BadToState (by decide),
   claim_C4.2.2 c4Repo c4GoodState (by decide) (by decide)⟩

end PyDriller
